import Mathlib

/-!
Verification development for the loan-performance dashboard (`CE.py`).

The Python source is embedded shallowly:

* spreadsheet/dataframe cells (`Cell`) are numbers, strings, parsed
  datetimes, or missing (pandas `NaN`);
* `clean_numeric_column` (lines 70-77), the date conversion of
  `load_data` (lines 52-55) and the preprocessing part of `main`
  (lines 90-119) become executable functions over optional columns of
  cells, with a Python `KeyError` modelled as an `Except` error;
* the per-view aggregations (`show_monthly_overview` lines 153-175,
  `show_rm_performance` lines 339-344) become functions over lists of
  post-normalization rows (`Row`);
* the Streamlit session-state navigation (`current_view`,
  `selected_month`, `selected_branch`, lines 62-68 and the buttons at
  lines 122-135, 238-241, 250-253, 321-324, 333-336) becomes a state
  machine on `NavState`.

Floating-point arithmetic is modelled by exact rationals; the display
rounding `.round(2)` is omitted, which the spec licenses by stating the
sum properties "within floating-point tolerance".
-/

namespace CE

/-- A spreadsheet/dataframe cell: a number, a Python string, a parsed
datetime (year and month, the only components `strftime('%B %Y')`
reads), or missing (`NaN`/`NaT`). -/
inductive Cell where
  | num (q : ℚ)
  | str (s : String)
  | date (y m : ℕ)
  | missing
deriving DecidableEq

def Cell.isStr : Cell → Bool
  | .str _ => true
  | _ => false

/-- The regex replacement `series.astype(str).str.replace(r'[^\d.-]', '',
regex=True)` on one string: keep only digits, decimal points and minus
signs (line 74).  Note the regex keeps every `-` and `.`, not only a
leading minus sign. -/
def stripNonNumeric (s : String) : String :=
  String.mk (s.toList.filter (fun c => c.isDigit || c == '.' || c == '-'))

/-- Numeric value of a digit string. -/
def digitsVal (cs : List Char) : ℕ :=
  cs.foldl (fun a c => a * 10 + (c.toNat - 48)) 0

/-- `pd.to_numeric(·, errors='coerce')` on a stripped string: an
optional leading minus sign, then digits with at most one decimal
point and at least one digit; anything else fails to parse (and the
cell will coerce to `NaN`). -/
def parseCleaned (s : String) : Option ℚ :=
  let cs := s.toList
  let neg := cs.head? == some '-'
  let rest := if neg then cs.tail else cs
  if rest.all (fun c => c.isDigit || c == '.') then
    let intPart := rest.takeWhile (fun c => c.isDigit)
    let rest2 := rest.drop intPart.length
    match rest2 with
    | [] =>
      if intPart.isEmpty then none
      else some ((if neg then -1 else 1) * (digitsVal intPart : ℚ))
    | _ :: frac =>
      if frac.any (fun c => c == '.') then none
      else if intPart.isEmpty && frac.isEmpty then none
      else some ((if neg then -1 else 1) *
        ((digitsVal intPart : ℚ) + (digitsVal frac : ℚ) / (10 : ℚ) ^ frac.length))
  else none

/-- One cell of `pd.to_numeric(cleaned, errors='coerce')` where
`cleaned = series.astype(str).str.replace(r'[^\d.-]', '', regex=True)`
(lines 74-76).  A numeric cell round-trips through its decimal string
representation unchanged; `NaN` prints as `"nan"`, strips to `""` and
coerces back to `NaN`; a datetime prints with embedded dashes and
colons, fails to parse, and coerces to `NaN`. -/
def toNumericCoerce : Cell → Cell
  | .str s =>
    match parseCleaned (stripNonNumeric s) with
    | some q => .num q
    | none => .missing
  | .num q => .num q
  | .date _ _ => .missing
  | .missing => .missing

/-- `clean_numeric_column` (lines 70-77): a column whose dtype is
`object` — that is, one holding at least one Python string — is
stripped and coerced cell by cell; a purely numeric column is returned
unchanged. -/
def clean_numeric_column (col : List Cell) : List Cell :=
  if col.any Cell.isStr then col.map toNumericCoerce else col

/-- Split a character list at every dash. -/
def splitDashes : List Char → List (List Char)
  | [] => [[]]
  | c :: rest =>
    let r := splitDashes rest
    if c = '-' then [] :: r
    else
      match r with
      | [] => [[c]]
      | h :: t => (c :: h) :: t

/-- Parse a non-empty all-digit character list as a natural number. -/
def charsToNat : List Char → Option ℕ
  | [] => none
  | cs => if cs.all Char.isDigit then some (digitsVal cs) else none

/-- `pd.to_datetime(·, errors='coerce')` on one cell, modelled for ISO
`"YYYY-MM-DD"` strings (none of the verified claims depends on the
other formats pandas accepts); an already parsed datetime passes
through; everything else coerces to `NaT` (missing). -/
def parseDateCell : Cell → Option (ℕ × ℕ)
  | .date y m => some (y, m)
  | .str s =>
    match (splitDashes s.toList).map charsToNat with
    | [some y, some m, some d] =>
      if 1 ≤ m ∧ m ≤ 12 ∧ 1 ≤ d ∧ d ≤ 31 then some (y, m) else none
    | _ => none
  | _ => none

def monthName : ℕ → String
  | 1 => "January"
  | 2 => "February"
  | 3 => "March"
  | 4 => "April"
  | 5 => "May"
  | 6 => "June"
  | 7 => "July"
  | 8 => "August"
  | 9 => "September"
  | 10 => "October"
  | 11 => "November"
  | 12 => "December"
  | _ => ""

/-- `strftime('%B %Y')` of a parsed date. -/
def monthLabel (y m : ℕ) : String := monthName m ++ " " ++ toString y

/-- One cell of line 100, `pd.to_datetime(df['Date']).dt.strftime('%B %Y')`:
an unparseable or missing date (`NaT`) yields a missing month label. -/
def monthCell (c : Cell) : Cell :=
  match parseDateCell c with
  | some (y, m) => .str (monthLabel y m)
  | none => .missing

/-- `pd.to_datetime(col, errors='coerce')` over a whole column
(`load_data`, lines 52-55). -/
def toDatetimeColumn (col : List Cell) : List Cell :=
  col.map (fun c =>
    match parseDateCell c with
    | some (y, m) => .date y m
    | none => .missing)

/-- `fillna('Unknown')` on one cell: pandas replaces only missing
values (`NaN`); string values — the empty string included — are left
untouched. -/
def fillUnknown : Cell → Cell
  | .missing => .str "Unknown"
  | c => c

/-- `col.fillna('Unknown')` (lines 101-103). -/
def fillnaUnknownColumn (col : List Cell) : List Cell := col.map fillUnknown

/-- The raw table built from `get_all_records()`: one optional column
per named header, `none` meaning the column is absent from the
sheet. -/
structure RawDF where
  date : Option (List Cell)
  valueDate : Option (List Cell)
  maturDate : Option (List Cell)
  amount : Option (List Cell)
  outstanding : Option (List Cell)
  interestRate : Option (List Cell)
  branch : Option (List Cell)
  rmName : Option (List Cell)
  productType : Option (List Cell)
  quarter : Option (List Cell)
deriving DecidableEq

/-- `load_data`'s cleaning step (lines 52-55): convert each of
`'VALUE DATE'`, `'Date'`, `'MATUR_DATE'` to datetimes when the column
is present; an absent date column is skipped (`if col in df.columns`). -/
def load_clean (df : RawDF) : RawDF :=
  { df with
    valueDate := df.valueDate.map toDatetimeColumn
    date := df.date.map toDatetimeColumn
    maturDate := df.maturDate.map toDatetimeColumn }

/-- A Python `KeyError`, raised by `df[name]` on an absent column. -/
inductive PyErr where
  | keyError
deriving DecidableEq

/-- `df[name]` for a column that may be absent. -/
def requireCol : Option (List Cell) → Except PyErr (List Cell)
  | some col => .ok col
  | none => .error .keyError

/-- The dataframe state after `main`'s preprocessing (lines 90-119). -/
structure PrepDF where
  month : List Cell
  quarter : List Cell
  branch : List Cell
  rmName : List Cell
  productType : List Cell
  amount : Option (List Cell)
  outstanding : Option (List Cell)
  interestRate : Option (List Cell)
deriving DecidableEq

/-- `main`'s preprocessing (lines 90-119) on a loaded frame.  The
numeric cleaning (lines 91-97) is guarded by `if col in df.columns`,
but the `MONTH` derivation (line 100), the three `fillna` lines
(101-103) and the product-type filter options (line 113) index their
columns unguarded, raising `KeyError` when the column is absent. -/
def mainPrep (df : RawDF) : Except PyErr PrepDF := do
  let amount := df.amount.map clean_numeric_column
  let outstanding := df.outstanding.map clean_numeric_column
  let interestRate := df.interestRate.map clean_numeric_column
  let dateCol ← requireCol df.date
  let monthCol := dateCol.map monthCell
  let quarterCol := fillnaUnknownColumn (← requireCol df.quarter)
  let branchCol := fillnaUnknownColumn (← requireCol df.branch)
  let rmCol := fillnaUnknownColumn (← requireCol df.rmName)
  let ptCol ← requireCol df.productType
  .ok ⟨monthCol, quarterCol, branchCol, rmCol, ptCol, amount, outstanding, interestRate⟩

/-! ## Navigation state machine -/

inductive View where
  | monthly
  | branch
  | rm
deriving DecidableEq

/-- The Streamlit session state driving navigation (lines 62-68). -/
structure NavState where
  currentView : View
  selectedMonth : Option String
  selectedBranch : Option String
deriving DecidableEq

/-- Session-state initialization (lines 63-68). -/
def initState : NavState := ⟨.monthly, none, none⟩

/-- The `Monthly Overview` button (lines 124-127): jump to the monthly
view and clear both scope keys. -/
def jumpMonthly (_ : NavState) : NavState := ⟨.monthly, none, none⟩

/-- The `Branch Performance` button (lines 128-131): moves to the
branch view only when a month is selected; otherwise nothing happens
and the session remains at the current level. -/
def navBranchButton (s : NavState) : NavState :=
  if s.selectedMonth.isSome then { s with currentView := .branch } else s

/-- The `RM Performance` button (lines 132-135). -/
def navRmButton (s : NavState) : NavState :=
  if s.selectedBranch.isSome then { s with currentView := .rm } else s

/-- A `View Branches` row button of the monthly table (lines 238-241):
moves to the branch view with the chosen month; `selected_branch` is
not touched. -/
def selectMonth (m : String) (s : NavState) : NavState :=
  ⟨.branch, some m, s.selectedBranch⟩

/-- The branch view's back button (lines 250-253): back to the monthly
view, clearing `selected_month`; `selected_branch` is not touched. -/
def backFromBranch (s : NavState) : NavState :=
  ⟨.monthly, none, s.selectedBranch⟩

/-- A `View RMs` row button of the branch table (lines 321-324). -/
def selectBranch (b : String) (s : NavState) : NavState :=
  ⟨.rm, s.selectedMonth, some b⟩

/-- The RM view's back button (lines 333-336): back to the branch view,
clearing `selected_branch` and retaining `selected_month`. -/
def backFromRm (s : NavState) : NavState :=
  ⟨.branch, s.selectedMonth, none⟩

/-- One user navigation action among `selectMonth`, `selectBranch`,
`back` and the jump to the Monthly overview.  Each view-local button
can only fire while its view is rendered (the routing at lines
140-145 runs exactly one `show_*` function per rerun). -/
inductive Step : NavState → NavState → Prop
  | selectMonth (m : String) (s : NavState) :
      s.currentView = .monthly → Step s (selectMonth m s)
  | selectBranch (b : String) (s : NavState) :
      s.currentView = .branch → Step s (selectBranch b s)
  | backBranch (s : NavState) :
      s.currentView = .branch → Step s (backFromBranch s)
  | backRm (s : NavState) :
      s.currentView = .rm → Step s (backFromRm s)
  | jump (s : NavState) : Step s (jumpMonthly s)

/-- States reachable from the initial session state via the user
navigation actions. -/
inductive Reachable : NavState → Prop
  | init : Reachable initState
  | step {s t : NavState} : Reachable s → Step s t → Reachable t

/-! ## Aggregation over the filtered frame -/

/-- One row of the filtered frame handed to the view functions, after
normalization: `MONTH` is a label or missing (`NaN`), the numeric
fields are numbers or missing. -/
structure Row where
  month : Option String
  branch : String
  rmName : String
  productType : Option String
  amount : Option ℚ
  outstanding : Option ℚ
deriving DecidableEq

/-- `len(df)` (line 153): every row counts, month label present or
not. -/
def totalLoans (df : List Row) : ℕ := df.length

/-- `df['AMOUNT IN USD'].sum()` (line 154): a pandas column sum skips
`NaN` entries. -/
def sumAmount (df : List Row) : ℚ := (df.map (fun r => r.amount.getD 0)).sum

/-- The group keys of `df.groupby('MONTH')` (line 168): the distinct
non-missing labels, in sorted order (pandas sorts group keys and, with
the default `dropna=True`, rows whose `MONTH` is `NaN` belong to no
group). -/
def monthKeys (df : List Row) : List String :=
  ((df.filterMap Row.month).dedup).insertionSort (fun a b => a ≤ b)

/-- The rows of one month group. -/
def monthGroup (df : List Row) (m : String) : List Row :=
  df.filter (fun r => r.month == some m)

/-- The `Total Amount` aggregate of one month group (lines 168-174). -/
def monthlyTotalAmount (df : List Row) (m : String) : ℚ :=
  sumAmount (monthGroup df m)

/-- The sum of the per-month `Total Amount` values over all month
groups. -/
def monthlyGrandTotal (df : List Row) : ℚ :=
  ((monthKeys df).map (monthlyTotalAmount df)).sum

/-- Lexicographic comparison of character lists by code point — the
order Python string comparison (and hence the pandas sort inside
`Series.mode()`) uses. -/
def charListLe : List Char → List Char → Bool
  | [], _ => true
  | _ :: _, [] => false
  | a :: as, b :: bs =>
    if a.toNat = b.toNat then charListLe as bs
    else decide (a.toNat < b.toNat)

/-- Python string `<=` (code-point lexicographic). -/
def strLeB (a b : String) : Bool := charListLe a.toList b.toList

/-- `strLeB` as a relation. -/
def strLeP (a b : String) : Prop := strLeB a b = true

instance : DecidableRel strLeP :=
  fun a b => inferInstanceAs (Decidable (strLeB a b = true))

/-- `Series.mode()` with its default `dropna=True`: the values of
maximal multiplicity, returned in sorted order. -/
def modeSorted (vs : List String) : List String :=
  (vs.dedup.filter
      (fun v => vs.dedup.all (fun u => decide (vs.count u ≤ vs.count v)))).insertionSort
    strLeP

/-- The `'PRODUCT_TYPE'` aggregate of one RM group (line 343):
`x.mode().iloc[0] if not x.mode().empty else 'N/A'`. -/
def rmTopProduct (l : List (Option String)) : String :=
  match modeSorted (l.filterMap id) with
  | [] => "N/A"
  | v :: _ => v

/-- The product-type cells of one group of
`branch_df.groupby('RM Name')` (lines 339-344), in input row order. -/
def rmGroupProducts (df : List Row) (rm : String) : List (Option String) :=
  (df.filter (fun r => r.rmName == rm)).map Row.productType

/-! ## Concrete tables used by counterexamples and witnesses -/

/-- A one-row sheet with every column the preprocessing needs, whose
branch cell is the empty string. -/
def dfC5 : RawDF :=
  ⟨some [Cell.str "2024-03-01"], none, none, some [Cell.num 1000], none, none,
    some [Cell.str ""], some [Cell.str "A"], some [Cell.str "Loan"], some [Cell.str "Q1"]⟩

/-- `dfC5` with a missing (`NaN`) branch cell instead. -/
def dfC5b : RawDF := { dfC5 with branch := some [Cell.missing] }

/-- The preprocessing output for `dfC5b`. -/
def prepC5b : PrepDF :=
  ⟨[Cell.str "March 2024"], [Cell.str "Q1"], [Cell.str "Unknown"], [Cell.str "A"],
    [Cell.str "Loan"], some [Cell.num 1000], none, none⟩

/-- `dfC5` with the `'Date'` column absent. -/
def dfC7 : RawDF := { dfC5 with date := none }

/-- A single filtered row whose date failed to parse (missing month
label) and whose amount is 100. -/
def dfC3 : List Row := [⟨none, "SRB", "A", none, some 100, none⟩]

/-- Two rows of the same RM group with two distinct product types, one
occurrence each: a tie.  The value first encountered in row order is
`"SME Loan"`; the sorted-first value is `"Home Loan"`. -/
def dfC2 : List Row :=
  [⟨some "March 2024", "SRB", "A", some "SME Loan", some 1000, none⟩,
   ⟨some "March 2024", "SRB", "A", some "Home Loan", some 2000, none⟩]

/-! ## Navigation theorems -/

/-- Helper: the scope-key invariant holds in every reachable session
state. -/
theorem navInv_of_reachable {s : NavState} (h : Reachable s) :
    (s.currentView = View.branch → s.selectedMonth.isSome = true) ∧
    (s.currentView = View.rm →
      s.selectedMonth.isSome = true ∧ s.selectedBranch.isSome = true) := by
  induction h with
  | init => simp [initState]
  | step _ hstep ih =>
    cases hstep with
    | selectMonth m s hv => simp [selectMonth]
    | selectBranch b s hv =>
      refine ⟨by simp [selectBranch], fun _ => ⟨?_, by simp [selectBranch]⟩⟩
      simpa [selectBranch] using ih.1 hv
    | backBranch s hv => simp [backFromBranch]
    | backRm s hv =>
      refine ⟨fun _ => ?_, by simp [backFromRm]⟩
      simpa [backFromRm] using (ih.2 hv).1
    | jump s => simp [jumpMonthly]

/-- Helper: in every reachable monthly-view state no month is
selected. -/
theorem month_none_of_monthly {s : NavState} (h : Reachable s)
    (hv : s.currentView = View.monthly) : s.selectedMonth = none := by
  induction h with
  | init => simp [initState]
  | step _ hstep ih =>
    cases hstep with
    | selectMonth m s hv' => simp [selectMonth] at hv
    | selectBranch b s hv' => simp [selectBranch] at hv
    | backBranch s hv' => simp [backFromBranch]
    | backRm s hv' => simp [backFromRm] at hv
    | jump s => simp [jumpMonthly]

/-- C1: in every session state reachable from the initial state via the
user navigation actions (`selectMonth`, `selectBranch`, `back`, jump to
the Monthly overview), the branch view carries a selected month and the
RM view carries both a selected month and a selected branch. -/
theorem c1_nav_invariant (s : NavState) (h : Reachable s) :
    (s.currentView = View.branch → s.selectedMonth.isSome = true) ∧
    (s.currentView = View.rm →
      s.selectedMonth.isSome = true ∧ s.selectedBranch.isSome = true) :=
  navInv_of_reachable h

theorem c1_nav_invariant_witness :
    (initState.currentView = View.branch → initState.selectedMonth.isSome = true) ∧
    (initState.currentView = View.rm →
      initState.selectedMonth.isSome = true ∧ initState.selectedBranch.isSome = true) :=
  c1_nav_invariant initState Reachable.init

/-- C6: requesting the branch view without a selected month is refused:
the `Branch Performance` button leaves the session state unchanged, the
no-op surfacing of `ScopeMissing` that the spec's error-handling design
prescribes (remain at the current level). -/
theorem c6_branch_scope_missing (s : NavState) (h : s.selectedMonth = none) :
    navBranchButton s = s := by
  simp [navBranchButton, h]

theorem c6_branch_scope_missing_witness : navBranchButton initState = initState :=
  c6_branch_scope_missing initState rfl

/-- C8: from any reachable monthly-view state, `selectMonth m` followed
by `back` returns exactly the state before `selectMonth`; in particular
the monthly view is restored with `selectedMonth` unset. -/
theorem c8_select_month_back_roundtrip (s : NavState) (h : Reachable s)
    (hv : s.currentView = View.monthly) (m : String) :
    backFromBranch (selectMonth m s) = s := by
  have hm := month_none_of_monthly h hv
  cases s with
  | mk v mo br =>
    simp only at hv hm
    subst hv hm
    rfl

theorem c8_select_month_back_roundtrip_witness :
    backFromBranch (selectMonth "March 2024" initState) = initState :=
  c8_select_month_back_roundtrip initState Reachable.init rfl "March 2024"

/-- C9: the back transition from the RM view moves to the branch view,
clears `selectedBranch`, and leaves `selectedMonth` unchanged. -/
theorem c9_back_from_rm_frame (s : NavState) (_h : s.currentView = View.rm) :
    (backFromRm s).currentView = View.branch ∧
    (backFromRm s).selectedBranch = none ∧
    (backFromRm s).selectedMonth = s.selectedMonth :=
  ⟨rfl, rfl, rfl⟩

theorem c9_back_from_rm_frame_witness :
    (backFromRm ⟨View.rm, some "March 2024", some "SRB"⟩).currentView = View.branch ∧
    (backFromRm ⟨View.rm, some "March 2024", some "SRB"⟩).selectedBranch = none ∧
    (backFromRm ⟨View.rm, some "March 2024", some "SRB"⟩).selectedMonth
      = (⟨View.rm, some "March 2024", some "SRB"⟩ : NavState).selectedMonth :=
  c9_back_from_rm_frame ⟨View.rm, some "March 2024", some "SRB"⟩ rfl

/-! ## Normalizer theorems -/

/-- Helper: coercion never produces a string cell. -/
theorem toNumericCoerce_not_str (c : Cell) : (toNumericCoerce c).isStr = false := by
  cases c with
  | str s =>
    cases hp : parseCleaned (stripNonNumeric s) <;>
      simp [toNumericCoerce, hp, Cell.isStr]
  | num q => rfl
  | date y m => rfl
  | missing => rfl

/-- Helper: indexing commutes with the cellwise coercion (the default
`Cell.missing` is a fixed point of the coercion). -/
theorem getD_map_toNumericCoerce (col : List Cell) (i : ℕ) :
    (col.map toNumericCoerce).getD i Cell.missing
      = toNumericCoerce (col.getD i Cell.missing) := by
  induction col generalizing i with
  | nil => rfl
  | cons hd tl ih =>
    cases i with
    | zero => rfl
    | succ n => simpa [List.getD] using ih n

/-- Helper: a string read out of a column by index is a member of the
column. -/
theorem mem_of_getD_str (col : List Cell) (i : ℕ) (s : String)
    (h : col.getD i Cell.missing = Cell.str s) : Cell.str s ∈ col := by
  induction col generalizing i with
  | nil => simp [List.getD] at h
  | cons hd tl ih =>
    cases i with
    | zero =>
      simp [List.getD] at h
      simp [h]
    | succ n => exact List.mem_cons_of_mem _ (ih n (by simpa [List.getD] using h))

/-- C4: after numeric cleaning no cell of the column is a string; each
textual raw value is stripped to digits, decimal points and minus signs
and parsed, and a value that still fails to parse becomes missing
(`NaN`), which is not the number zero. -/
theorem c4_numeric_cleaning (col : List Cell) :
    (∀ c ∈ clean_numeric_column col, c.isStr = false) ∧
    (∀ (i : ℕ) (s : String), col.getD i Cell.missing = Cell.str s →
      parseCleaned (stripNonNumeric s) = none →
      (clean_numeric_column col).getD i Cell.missing = Cell.missing) ∧
    Cell.missing ≠ Cell.num 0 := by
  refine ⟨?_, ?_, by decide⟩
  · intro c hc
    cases hany : col.any Cell.isStr with
    | true =>
      simp only [clean_numeric_column, hany, if_true] at hc
      obtain ⟨c', _, rfl⟩ := List.mem_map.mp hc
      exact toNumericCoerce_not_str c'
    | false =>
      simp only [clean_numeric_column, hany, Bool.false_eq_true, if_false] at hc
      by_contra hcs
      have : col.any Cell.isStr = true :=
        List.any_eq_true.mpr ⟨c, hc, by simpa using hcs⟩
      simp [hany] at this
  · intro i s h1 h2
    have hmem : Cell.str s ∈ col := mem_of_getD_str col i s h1
    have hany : col.any Cell.isStr = true := List.any_eq_true.mpr ⟨_, hmem, rfl⟩
    simp only [clean_numeric_column, hany, if_true]
    rw [getD_map_toNumericCoerce, h1]
    simp [toNumericCoerce, h2]

theorem c4_numeric_cleaning_witness :
    ([Cell.str "-"].getD 0 Cell.missing = Cell.str "-") ∧
    parseCleaned (stripNonNumeric "-") = none ∧
    (clean_numeric_column [Cell.str "-"]).getD 0 Cell.missing = Cell.missing :=
  ⟨rfl, by decide, (c4_numeric_cleaning [Cell.str "-"]).2.1 0 "-" rfl (by decide)⟩

/-- C5 counterexample: a record whose branch cell is the empty string
is not mapped to `"Unknown"` — `fillna` replaces only missing values,
so the empty string survives preprocessing unchanged. -/
theorem c5_counterexample :
    mainPrep (load_clean dfC5) =
      Except.ok ⟨[Cell.str "March 2024"], [Cell.str "Q1"], [Cell.str ""], [Cell.str "A"],
        [Cell.str "Loan"], some [Cell.num 1000], none, none⟩ ∧
    Cell.str "" ≠ Cell.str "Unknown" :=
  ⟨rfl, by decide⟩

/-- Helper: indexing commutes with the cellwise `fillna` (the default
`Cell.num 0` is a fixed point of `fillUnknown`). -/
theorem fillna_getD (col : List Cell) (i : ℕ) :
    (fillnaUnknownColumn col).getD i (Cell.num 0)
      = fillUnknown (col.getD i (Cell.num 0)) := by
  induction col generalizing i with
  | nil => rfl
  | cons hd tl ih =>
    cases i with
    | zero => rfl
    | succ n => simpa [fillnaUnknownColumn, List.getD] using ih n

/-- C5 (amended): preprocessing applies `fillna('Unknown')` to the
branch column, so a missing (`NaN`/absent-key) branch cell becomes the
literal `"Unknown"`, while any string cell — the empty string included —
is kept as is (likewise for `rmName` and `quarter`, which go through
the same `fillnaUnknownColumn`). -/
theorem c5_fillna_missing_only (df : RawDF) (out : PrepDF) (bcol : List Cell)
    (hb : df.branch = some bcol) (h : mainPrep df = Except.ok out) :
    out.branch = fillnaUnknownColumn bcol ∧
    (∀ i : ℕ, bcol.getD i (Cell.num 0) = Cell.missing →
      out.branch.getD i (Cell.num 0) = Cell.str "Unknown") ∧
    (∀ (i : ℕ) (s : String), bcol.getD i (Cell.num 0) = Cell.str s →
      out.branch.getD i (Cell.num 0) = Cell.str s) := by
  have hbr : out.branch = fillnaUnknownColumn bcol := by
    cases hd : df.date with
    | none => simp [mainPrep, requireCol, hd, bind, Except.bind] at h
    | some dcol =>
      cases hq : df.quarter with
      | none => simp [mainPrep, requireCol, hd, hq, bind, Except.bind] at h
      | some qcol =>
        cases hr : df.rmName with
        | none => simp [mainPrep, requireCol, hd, hq, hb, hr, bind, Except.bind] at h
        | some rcol =>
          cases hp : df.productType with
          | none => simp [mainPrep, requireCol, hd, hq, hb, hr, hp, bind, Except.bind] at h
          | some pcol =>
            simp only [mainPrep, requireCol, hd, hq, hb, hr, hp, bind, Except.bind,
              pure, Except.pure, Except.ok.injEq] at h
            rw [← h]
  refine ⟨hbr, fun i hmiss => ?_, fun i s hstr => ?_⟩
  · rw [hbr, fillna_getD, hmiss]; rfl
  · rw [hbr, fillna_getD, hstr]; rfl

theorem c5_fillna_missing_only_witness :
    prepC5b.branch = fillnaUnknownColumn [Cell.missing] ∧
    (∀ i : ℕ, ([Cell.missing] : List Cell).getD i (Cell.num 0) = Cell.missing →
      prepC5b.branch.getD i (Cell.num 0) = Cell.str "Unknown") ∧
    (∀ (i : ℕ) (s : String), ([Cell.missing] : List Cell).getD i (Cell.num 0) = Cell.str s →
      prepC5b.branch.getD i (Cell.num 0) = Cell.str s) :=
  c5_fillna_missing_only dfC5b prepC5b [Cell.missing] rfl rfl

/-- C7 counterexample: with the `'Date'` column absent, the unguarded
`df['Date']` at line 100 raises `KeyError` — a fatal error, not
all-missing handling. -/
theorem c7_counterexample :
    dfC7.date = none ∧ mainPrep (load_clean dfC7) = Except.error PyErr.keyError :=
  ⟨rfl, rfl⟩

/-- C7 (amended): within `load_data` and `main`'s preprocessing, the
columns `'VALUE DATE'`, `'MATUR_DATE'`, `'AMOUNT IN USD'`,
`'OUTSTANDING'` and `'INTEREST RATE'` may be absent without error
(their handling is guarded by `if col in df.columns`), but `'Date'`,
`'Quarter'`, `'Branch/Outlet'`, `'RM Name'` and `'PRODUCT_TYPE'` are
required: when they are present the preprocessing succeeds, and (by
`c7_counterexample`) an absent required column raises `KeyError`. -/
theorem c7_required_columns (df : RawDF)
    (h1 : df.date.isSome = true) (h2 : df.quarter.isSome = true)
    (h3 : df.branch.isSome = true) (h4 : df.rmName.isSome = true)
    (h5 : df.productType.isSome = true) :
    ∃ out, mainPrep (load_clean df) = Except.ok out := by
  cases df with
  | mk d vd md am os ir br rm pt qu =>
    cases d with
    | none => simp at h1
    | some dcol =>
      cases qu with
      | none => simp at h2
      | some qcol =>
        cases br with
        | none => simp at h3
        | some bcol =>
          cases rm with
          | none => simp at h4
          | some rcol =>
            cases pt with
            | none => simp at h5
            | some pcol => exact ⟨_, rfl⟩

theorem c7_required_columns_witness :
    ∃ out, mainPrep (load_clean dfC5) = Except.ok out :=
  c7_required_columns dfC5 rfl rfl rfl rfl rfl

/-! ## Aggregation theorems -/

/-- Helper: a sum over a list splits along a Boolean predicate. -/
theorem sum_map_filter_split (l : List Row) (p : Row → Bool) (f : Row → ℚ) :
    ((l.filter p).map f).sum + ((l.filter (fun x => !(p x))).map f).sum
      = (l.map f).sum := by
  induction l with
  | nil => simp
  | cons hd tl ih =>
    cases hp : p hd <;>
      simp only [List.filter_cons, hp, Bool.not_true, Bool.not_false, Bool.false_eq_true,
        if_true, if_false, List.map_cons, List.sum_cons, ite_true, ite_false] <;>
      rw [← ih] <;> ring

/-- Helper: the length of a list splits along a Boolean predicate. -/
theorem length_filter_split (l : List Row) (p : Row → Bool) :
    l.length = (l.filter p).length + (l.filter (fun x => !(p x))).length := by
  induction l with
  | nil => simp
  | cons hd tl ih =>
    cases hp : p hd <;>
      simp only [List.filter_cons, hp, Bool.not_true, Bool.not_false, Bool.false_eq_true,
        List.length_cons, if_true, if_false, ite_true, ite_false] <;>
      omega

/-- Helper: summing the per-group totals over any duplicate-free key
list that covers every month occurring in `l` gives the total over the
rows whose month label is present. -/
theorem grouped_sum_eq (ks : List String) (l : List Row)
    (hnd : ks.Nodup)
    (hcov : ∀ r ∈ l, ∀ m, r.month = some m → m ∈ ks) :
    (ks.map (fun k => sumAmount (l.filter (fun r => r.month == some k)))).sum
      = sumAmount (l.filter (fun r => r.month.isSome)) := by
  induction ks generalizing l with
  | nil =>
    have hf : l.filter (fun r => r.month.isSome) = [] := by
      rw [List.filter_eq_nil_iff]
      intro r hr hsome
      cases hm : r.month with
      | none => rw [hm] at hsome; simp at hsome
      | some m => exact (List.not_mem_nil m) (hcov r hr m hm)
    simp [hf, sumAmount]
  | cons k ks ih =>
    have hknotin : k ∉ ks := (List.nodup_cons.mp hnd).1
    have hndt : ks.Nodup := (List.nodup_cons.mp hnd).2
    -- rows not in the head group
    have htail : ∀ k' ∈ ks,
        l.filter (fun r => r.month == some k')
          = (l.filter (fun r => !(r.month == some k))).filter
              (fun r => r.month == some k') := by
      intro k' hk'
      rw [List.filter_filter]
      apply List.filter_congr
      intro r _
      cases hm : (r.month == some k') with
      | false => simp
      | true =>
        have hrm : r.month = some k' := by simpa using hm
        have hne : (r.month == some k) = false := by
          rw [hrm]
          simp only [beq_eq_false_iff_ne, ne_eq, Option.some.injEq]
          intro hkk
          exact hknotin (hkk ▸ hk')
        simp [hne]
    have hcov' : ∀ r ∈ l.filter (fun r => !(r.month == some k)),
        ∀ m, r.month = some m → m ∈ ks := by
      intro r hr m hm
      have hrl : r ∈ l := List.mem_of_mem_filter hr
      have hne : (r.month == some k) = false := by
        have := (List.mem_filter.mp hr).2
        cases hmk : (r.month == some k) with
        | false => rfl
        | true => rw [hmk] at this; simp at this
      have hmk : m ≠ k := by
        intro hkk
        rw [hm, hkk] at hne
        simp at hne
      rcases List.mem_cons.mp (hcov r hrl m hm) with h | h
      · exact absurd h hmk
      · exact h
    have hsum_tail :
        (ks.map (fun k' => sumAmount (l.filter (fun r => r.month == some k')))).sum
          = sumAmount ((l.filter (fun r => !(r.month == some k))).filter
              (fun r => r.month.isSome)) := by
      rw [← ih (l.filter (fun r => !(r.month == some k))) hndt hcov']
      congr 1
      exact List.map_congr_left fun k' hk' => by rw [htail k' hk']
    -- split the month-present rows into the head group and the rest
    have hhead : l.filter (fun r => r.month == some k)
        = (l.filter (fun r => r.month.isSome)).filter (fun r => r.month == some k) := by
      rw [List.filter_filter]
      apply List.filter_congr
      intro r _
      cases hm : (r.month == some k) with
      | false => simp
      | true =>
        have hrm : r.month = some k := by simpa using hm
        simp [hrm]
    have hrest : (l.filter (fun r => !(r.month == some k))).filter
          (fun r => r.month.isSome)
        = (l.filter (fun r => r.month.isSome)).filter
            (fun r => !(r.month == some k)) := by
      rw [List.filter_filter, List.filter_filter]
      apply List.filter_congr
      intro r _
      exact Bool.and_comm _ _
    rw [List.map_cons, List.sum_cons, hsum_tail, hrest, hhead]
    unfold sumAmount
    exact sum_map_filter_split (l.filter (fun r => r.month.isSome)) _ _

/-- Helper: the sum of the per-month `Total Amount` values over all
month groups equals the amount sum over the rows that carry a month
label. -/
theorem monthlyGrandTotal_eq (df : List Row) :
    monthlyGrandTotal df = sumAmount (df.filter (fun r => r.month.isSome)) := by
  unfold monthlyGrandTotal
  have hperm : List.Perm (monthKeys df) ((df.filterMap Row.month).dedup) :=
    List.perm_insertionSort _ _
  have hnd : (monthKeys df).Nodup :=
    hperm.nodup_iff.mpr (List.nodup_dedup _)
  have hcov : ∀ r ∈ df, ∀ m, r.month = some m → m ∈ monthKeys df := by
    intro r hr m hm
    rw [hperm.mem_iff, List.mem_dedup]
    exact List.mem_filterMap.mpr ⟨r, hr, hm⟩
  have := grouped_sum_eq (monthKeys df) df hnd hcov
  rw [← this]
  rfl

/-- C3 (amended): the sum of the per-month `Total Amount` values over
all month groups equals the sum of `amountUsd` over the records of the
filtered input that carry a month label — equivalently, over the whole
filtered input whenever every record's primary date parsed.  Records
whose `MONTH` is missing are dropped by `groupby` and break the
claimed equality with the full-input sum (see the counterexample). -/
theorem c3_monthly_sum_partition (df : List Row) :
    monthlyGrandTotal df = sumAmount (df.filter (fun r => r.month.isSome)) :=
  monthlyGrandTotal_eq df

/-- C3 counterexample: a non-empty filtered table with one record whose
month label is missing (unparseable date) and whose amount is 100: the
sum over all month groups is 0, the sum over the full filtered input is
100. -/
theorem c3_counterexample :
    dfC3 ≠ [] ∧ monthlyGrandTotal dfC3 ≠ sumAmount dfC3 := by
  refine ⟨by simp [dfC3], ?_⟩
  have h1 : monthlyGrandTotal dfC3 = 0 := rfl
  have h2 : sumAmount dfC3 = 100 := by
    simp [sumAmount, dfC3]
  rw [h1, h2]
  norm_num

/-- C10: a record with a missing month label is excluded from every
month group (and every group key is a month actually present — there is
no `"Unknown"` month bucket, `fillna` is never applied to `MONTH`),
while the monthly overview's ungrouped totals `len(df)` and
`df['AMOUNT IN USD'].sum()` still include such records; a cell whose
date does not parse receives a missing month label. -/
theorem c10_missing_month_excluded (df : List Row) :
    (∀ c : Cell, parseDateCell c = none → monthCell c = Cell.missing) ∧
    (∀ r ∈ df, r.month = none → ∀ m, r ∉ monthGroup df m) ∧
    (∀ m ∈ monthKeys df, ∃ r ∈ df, r.month = some m) ∧
    totalLoans df
      = (df.filter (fun r => r.month.isSome)).length
        + (df.filter (fun r => !(r.month.isSome))).length ∧
    sumAmount df
      = sumAmount (df.filter (fun r => r.month.isSome))
        + sumAmount (df.filter (fun r => !(r.month.isSome))) ∧
    monthlyGrandTotal df = sumAmount (df.filter (fun r => r.month.isSome)) := by
  refine ⟨?_, ?_, ?_, ?_, ?_, monthlyGrandTotal_eq df⟩
  · intro c hc
    simp [monthCell, hc]
  · intro r _ hm m hmem
    have := (List.mem_filter.mp hmem).2
    rw [hm] at this
    simp at this
  · intro m hm
    have : m ∈ (df.filterMap Row.month).dedup :=
      (List.perm_insertionSort _ _).mem_iff.mp hm
    rw [List.mem_dedup] at this
    exact List.mem_filterMap.mp this
  · exact length_filter_split df _
  · exact (sum_map_filter_split df _ _).symm

theorem c10_missing_month_excluded_witness :
    (∀ c : Cell, parseDateCell c = none → monthCell c = Cell.missing) ∧
    (∀ r ∈ dfC3, r.month = none → ∀ m, r ∉ monthGroup dfC3 m) ∧
    (∀ m ∈ monthKeys dfC3, ∃ r ∈ dfC3, r.month = some m) ∧
    totalLoans dfC3
      = (dfC3.filter (fun r => r.month.isSome)).length
        + (dfC3.filter (fun r => !(r.month.isSome))).length ∧
    sumAmount dfC3
      = sumAmount (dfC3.filter (fun r => r.month.isSome))
        + sumAmount (dfC3.filter (fun r => !(r.month.isSome))) ∧
    monthlyGrandTotal dfC3 = sumAmount (dfC3.filter (fun r => r.month.isSome)) :=
  c10_missing_month_excluded dfC3

/-! ## RM mode theorems -/

/-- Helper: the code-point order is reflexive. -/
theorem charListLe_refl : ∀ a : List Char, charListLe a a = true
  | [] => rfl
  | _ :: cs => by
    simp only [charListLe, if_pos rfl]
    exact charListLe_refl cs

/-- Helper: the code-point order is total. -/
theorem charListLe_total : ∀ a b : List Char,
    charListLe a b = true ∨ charListLe b a = true := by
  intro a
  induction a with
  | nil => intro b; left; rfl
  | cons x as ih =>
    intro b
    cases b with
    | nil => right; rfl
    | cons y bs =>
      by_cases hxy : x.toNat = y.toNat
      · rcases ih bs with h | h
        · left
          simp only [charListLe, if_pos hxy]
          exact h
        · right
          simp only [charListLe, if_pos hxy.symm]
          exact h
      · by_cases hlt : x.toNat < y.toNat
        · left
          simp only [charListLe, if_neg hxy]
          simpa using hlt
        · right
          have hyx : ¬ y.toNat = x.toNat := fun he => hxy he.symm
          simp only [charListLe, if_neg hyx]
          have : y.toNat < x.toNat := by omega
          simpa using this

/-- Helper: the code-point order is transitive. -/
theorem charListLe_trans : ∀ a b c : List Char,
    charListLe a b = true → charListLe b c = true → charListLe a c = true := by
  intro a
  induction a with
  | nil => intro b c _ _; rfl
  | cons x as ih =>
    intro b c hab hbc
    cases b with
    | nil => simp [charListLe] at hab
    | cons y bs =>
      cases c with
      | nil => simp [charListLe] at hbc
      | cons z cs =>
        simp only [charListLe] at hab hbc ⊢
        by_cases hxy : x.toNat = y.toNat
        · rw [if_pos hxy] at hab
          by_cases hyz : y.toNat = z.toNat
          · rw [if_pos hyz] at hbc
            rw [if_pos (hxy.trans hyz)]
            exact ih bs cs hab hbc
          · rw [if_neg hyz] at hbc
            have hyz' : y.toNat < z.toNat := by simpa using hbc
            rw [if_neg (by omega : ¬ x.toNat = z.toNat)]
            have : x.toNat < z.toNat := by omega
            simpa using this
        · rw [if_neg hxy] at hab
          have hxy' : x.toNat < y.toNat := by simpa using hab
          by_cases hyz : y.toNat = z.toNat
          · rw [if_neg (by omega : ¬ x.toNat = z.toNat)]
            have : x.toNat < z.toNat := by omega
            simpa using this
          · rw [if_neg hyz] at hbc
            have hyz' : y.toNat < z.toNat := by simpa using hbc
            rw [if_neg (by omega : ¬ x.toNat = z.toNat)]
            have : x.toNat < z.toNat := by omega
            simpa using this

instance : IsTotal String strLeP :=
  ⟨fun a b => charListLe_total a.toList b.toList⟩

instance : IsTrans String strLeP :=
  ⟨fun a b c => charListLe_trans a.toList b.toList c.toList⟩

/-- Helper: on a non-empty value list, `Series.mode()` is non-empty,
its first element is one of the values, that element's multiplicity is
maximal, and it is sorted-least among the tied maxima. -/
theorem modeSorted_spec (vs : List String) (h : vs ≠ []) :
    ∃ v t, modeSorted vs = v :: t ∧ v ∈ vs ∧
      (∀ u ∈ vs, vs.count u ≤ vs.count v) ∧
      (∀ u ∈ vs, vs.count u = vs.count v → strLeB v u = true) := by
  have hdne : vs.dedup ≠ [] := fun hnil => h ((List.dedup_eq_nil vs).mp hnil)
  obtain ⟨m0, hm0⟩ : ∃ m0, vs.dedup.argmax (fun v => vs.count v) = some m0 := by
    cases hav : vs.dedup.argmax (fun v => vs.count v) with
    | none => exact absurd (List.argmax_eq_none.mp hav) hdne
    | some m0 => exact ⟨m0, rfl⟩
  have hm0mem : m0 ∈ vs.dedup := List.argmax_mem hm0
  have hm0max : ∀ u ∈ vs.dedup, vs.count u ≤ vs.count m0 :=
    fun u hu => List.le_of_mem_argmax hu hm0
  have hm0cand : m0 ∈ vs.dedup.filter
      (fun v => vs.dedup.all (fun u => decide (vs.count u ≤ vs.count v))) := by
    rw [List.mem_filter]
    refine ⟨hm0mem, ?_⟩
    rw [List.all_eq_true]
    intro u hu
    exact decide_eq_true (hm0max u hu)
  have hperm : List.Perm (modeSorted vs)
      (vs.dedup.filter
        (fun v => vs.dedup.all (fun u => decide (vs.count u ≤ vs.count v)))) :=
    List.perm_insertionSort _ _
  have hsorted : List.Sorted strLeP (modeSorted vs) :=
    List.sorted_insertionSort _ _
  cases hs : modeSorted vs with
  | nil =>
    exfalso
    rw [hs] at hperm
    exact List.ne_nil_of_mem hm0cand (List.Perm.eq_nil hperm.symm)
  | cons v t =>
    have hvmem : v ∈ vs.dedup.filter
        (fun v => vs.dedup.all (fun u => decide (vs.count u ≤ vs.count v))) := by
      apply hperm.mem_iff.mp
      rw [hs]
      exact List.mem_cons_self v t
    obtain ⟨hvdedup, hvall⟩ := List.mem_filter.mp hvmem
    have hvmax : ∀ u ∈ vs.dedup, vs.count u ≤ vs.count v := by
      intro u hu
      have := List.all_eq_true.mp hvall u hu
      exact of_decide_eq_true this
    refine ⟨v, t, rfl, List.mem_dedup.mp hvdedup, ?_, ?_⟩
    · intro u hu
      exact hvmax u (List.mem_dedup.mpr hu)
    · intro u hu hcnt
      have hucand : u ∈ vs.dedup.filter
          (fun v => vs.dedup.all (fun u => decide (vs.count u ≤ vs.count v))) := by
        rw [List.mem_filter]
        refine ⟨List.mem_dedup.mpr hu, ?_⟩
        rw [List.all_eq_true]
        intro w hw
        exact decide_eq_true (hcnt ▸ hvmax w hw)
      have husort : u ∈ modeSorted vs := hperm.mem_iff.mpr hucand
      rw [hs] at husort
      rcases List.mem_cons.mp husort with he | ht
      · rw [he]
        exact charListLe_refl _
      · rw [hs] at hsorted
        exact (List.sorted_cons.mp hsorted).1 u ht

/-- C2 (amended): in every RM group with at least one non-missing
product type, the modal-product aggregation does not raise: it returns
a member of the group's product types whose occurrence count is
maximal, and on a tie it deterministically selects the sorted-least
(code-point lexicographically smallest) tied value — not the value
appearing first in input row order (see the counterexample). -/
theorem c2_rm_mode_tiebreak (df : List Row) (rm : String)
    (h : (rmGroupProducts df rm).filterMap id ≠ []) :
    rmTopProduct (rmGroupProducts df rm) ∈ (rmGroupProducts df rm).filterMap id ∧
    (∀ u ∈ (rmGroupProducts df rm).filterMap id,
      ((rmGroupProducts df rm).filterMap id).count u
        ≤ ((rmGroupProducts df rm).filterMap id).count
            (rmTopProduct (rmGroupProducts df rm))) ∧
    (∀ u ∈ (rmGroupProducts df rm).filterMap id,
      ((rmGroupProducts df rm).filterMap id).count u
          = ((rmGroupProducts df rm).filterMap id).count
              (rmTopProduct (rmGroupProducts df rm)) →
        strLeB (rmTopProduct (rmGroupProducts df rm)) u = true) := by
  obtain ⟨v, t, hs, hvmem, hvmax, hvtie⟩ :=
    modeSorted_spec ((rmGroupProducts df rm).filterMap id) h
  have htop : rmTopProduct (rmGroupProducts df rm) = v := by
    unfold rmTopProduct
    rw [hs]
  rw [htop]
  exact ⟨hvmem, hvmax, hvtie⟩

theorem c2_rm_mode_tiebreak_witness :
    ((rmGroupProducts dfC2 "A").filterMap id ≠ []) ∧
    (rmTopProduct (rmGroupProducts dfC2 "A") ∈ (rmGroupProducts dfC2 "A").filterMap id ∧
    (∀ u ∈ (rmGroupProducts dfC2 "A").filterMap id,
      ((rmGroupProducts dfC2 "A").filterMap id).count u
        ≤ ((rmGroupProducts dfC2 "A").filterMap id).count
            (rmTopProduct (rmGroupProducts dfC2 "A"))) ∧
    (∀ u ∈ (rmGroupProducts dfC2 "A").filterMap id,
      ((rmGroupProducts dfC2 "A").filterMap id).count u
          = ((rmGroupProducts dfC2 "A").filterMap id).count
              (rmTopProduct (rmGroupProducts dfC2 "A")) →
        strLeB (rmTopProduct (rmGroupProducts dfC2 "A")) u = true)) :=
  ⟨by decide, c2_rm_mode_tiebreak dfC2 "A" (by decide)⟩

/-- C2 counterexample: in the RM group `"A"` of `dfC2`, the product
types `"SME Loan"` and `"Home Loan"` are tied with one occurrence each
and `"SME Loan"` appears first in input row order, yet the aggregation
returns `"Home Loan"`, the sorted-first tied value — `Series.mode()`
returns the tied values in sorted order, not input order. -/
theorem c2_counterexample :
    rmGroupProducts dfC2 "A" = [some "SME Loan", some "Home Loan"] ∧
    rmTopProduct (rmGroupProducts dfC2 "A") = "Home Loan" ∧
    ("Home Loan" : String) ≠ "SME Loan" := by
  refine ⟨by decide, by decide, by decide⟩

end CE
